import Mathlib

/-!
Shallow embedding of the Olive Young product scraper
(`src/scraper/oliveyoung_scraper.py`) and its persistence adapter
(`src/database.py`), with proofs of the specified properties.

Page interactions are modelled by explicit environments: each DOM read that
can raise a (caught) exception becomes an `Option` value (`none` = the
underlying wait/selector raised), and each clickable control becomes a `Bool`
(present/absent, click succeeded/failed).  Pure Python string logic is
translated operation by operation.
-/

namespace OliveYoung

/-! ### Python string primitives, modelled character-wise

Python strings are sequences of code points, so `split`, `replace`, `strip`
and the `in` test are modelled on `List Char`.  The recursions carry explicit
fuel (the string length bounds the number of steps) so that every definition
is structural and evaluates inside the kernel. -/

/-- Occurrence test for `needle` anywhere inside a character list. -/
def listContains (needle : List Char) : List Char → Bool
  | [] => needle.isEmpty
  | c :: rest => needle.isPrefixOf (c :: rest) || listContains needle rest

/-- Python's substring test `needle in hay`. -/
def pyContains (hay needle : String) : Bool :=
  listContains needle.toList hay.toList

/-- One pass of Python `str.split(sep)` for a non-empty `sep`; `acc` holds the
(reversed) characters of the part being built and `fuel` bounds the steps. -/
def pySplitAux (sep : List Char) : Nat → List Char → List Char → List (List Char)
  | 0, rest, acc => [acc.reverse ++ rest]
  | _ + 1, [], acc => [acc.reverse]
  | fuel + 1, c :: rest, acc =>
    if sep.isPrefixOf (c :: rest) then
      acc.reverse :: pySplitAux sep fuel (rest.drop (sep.length - 1)) []
    else
      pySplitAux sep fuel rest (c :: acc)

/-- Python `s.split(sep)` (all occurrences, non-empty separator). -/
def pySplit (s sep : List Char) : List (List Char) :=
  if sep.isEmpty then [s] else pySplitAux sep s.length s []

/-- One pass of Python `str.replace(pat, repl)` for a non-empty `pat`. -/
def pyReplaceAux (pat repl : List Char) : Nat → List Char → List Char
  | 0, rest => rest
  | _ + 1, [] => []
  | fuel + 1, c :: rest =>
    if pat.isPrefixOf (c :: rest) then
      repl ++ pyReplaceAux pat repl fuel (rest.drop (pat.length - 1))
    else
      c :: pyReplaceAux pat repl fuel rest

/-- Python `s.replace(pat, repl)` (all occurrences, non-empty pattern). -/
def pyReplace (s pat repl : List Char) : List Char :=
  if pat.isEmpty then s else pyReplaceAux pat repl s.length s

/-- Python `s.strip()`: whitespace removed from both ends. -/
def pyStrip (s : List Char) : List Char :=
  ((s.dropWhile Char.isWhitespace).reverse.dropWhile Char.isWhitespace).reverse

/-- Python truthiness of an `Optional[str]`: `None` and `""` are falsy. -/
def pyTruthy : Option String → Bool
  | none => false
  | some s => s != ""

/-- `_parse_rating_from_text` (oliveyoung_scraper.py:426-438): from a phrase
of the form `'5점만점에 4점'` extract the score text after the scale marker,
with the trailing unit `'점'` removed and whitespace stripped; any phrase not
containing the marker yields `""`. -/
def _parse_rating_from_text (rating_text : String) : String :=
  if pyContains rating_text "점만점에" && pyContains rating_text "점" then
    let parts := pySplit rating_text.toList "점만점에".toList
    if parts.length > 1 then
      String.mk (pyStrip (pyReplace (parts.getD 1 []) "점".toList []))
    else ""
  else ""

/-! ### The review list of one page

`_extract_reviews_from_page` (oliveyoung_scraper.py:304-338) walks the
`#gdasList > li` items of the current review page.  For item `i` it reads the
review text and the raw rating phrase (each read raises when the element is
absent; the per-item `try` then skips the item), parses the phrase, and
appends text and parsed rating together.  The page environment records, for
each item, the text read (`none` = the read raised) and the raw rating phrase
(`none` = the read raised); `listPresent = false` models the initial
`wait_for_selector("#gdasList")` raising, which the outer `try` turns into an
empty result. -/

structure ReviewItem where
  text : Option String
  rating_text : Option String

structure ReviewPage where
  listPresent : Bool
  items : List ReviewItem

/-- The per-item body of the extraction loop: on success both accumulators
grow by one entry (text, parsed rating); any failed read skips the item. -/
def extractReviewStep (acc : List String × List String) (it : ReviewItem) :
    List String × List String :=
  match it.text, it.rating_text with
  | some t, some rt => (acc.1 ++ [t], acc.2 ++ [_parse_rating_from_text rt])
  | _, _ => acc

/-- `_extract_reviews_from_page`: texts and ratings of the current page. -/
def _extract_reviews_from_page (pg : ReviewPage) : List String × List String :=
  if pg.listPresent then pg.items.foldl extractReviewStep ([], []) else ([], [])

/-! ### Pagination

`_paginate_and_extract_reviews` (oliveyoung_scraper.py:246-302) loops while
the accumulator is below `max_reviews`: it extracts the current page, stops on
an empty page, appends the page's (text, rating) pairs until the maximum is
hit, and otherwise advances: it reads the active page number from the
`<strong>` indicator, picks the `a.next` ("next block") control when that
number is a multiple of 10 and the `strong + a` ("immediate next") control
otherwise, and stops when the control is absent or the click raises.

One `PageStep` is the environment of one loop iteration: the page contents
plus the pagination controls visible afterwards.  The environment is a finite
list of steps; an exhausted list behaves like a page with no reviews, which
stops the loop. -/

inductive NextControl where
  | nextBlock
  | immediateNext
  deriving DecidableEq

/-- The control the pagination step queries, as a function of the current
page number (`current_page_num % 10 == 0` picks `a.next`). -/
def selectNextControl (currentPageNum : Nat) : NextControl :=
  if currentPageNum % 10 == 0 then .nextBlock else .immediateNext

structure PageStep where
  page : ReviewPage
  /-- Page number parsed from the active `<strong>` indicator; `none` models a
  missing indicator or an unparsable number (both end the loop). -/
  currentPageNum : Option Nat
  /-- Whether `a.next` (the "next block" control) is present. -/
  nextBlockButton : Bool
  /-- Whether `strong + a` (the "immediate next page" control) is present. -/
  immediateNextButton : Bool
  /-- Whether clicking the chosen control (and the settle wait) succeeded. -/
  clickOk : Bool

/-- The `for review, rating in zip(...)` merge: append pairs while the review
accumulator is still below the maximum, then stop. -/
def appendUpTo (maxReviews : Nat) :
    List (String × String) → List String → List String → List String × List String
  | [], accR, accT => (accR, accT)
  | (r, t) :: ps, accR, accT =>
    if accR.length < maxReviews then
      appendUpTo maxReviews ps (accR ++ [r]) (accT ++ [t])
    else
      (accR, accT)

/-- The pagination loop of `_paginate_and_extract_reviews`. -/
def paginateLoop (maxReviews : Nat) :
    List PageStep → List String → List String → List String × List String
  | [], accR, accT => (accR, accT)
  | step :: rest, accR, accT =>
    if accR.length < maxReviews then
      let page := _extract_reviews_from_page step.page
      if page.1.isEmpty then (accR, accT)
      else
        let merged := appendUpTo maxReviews (page.1.zip page.2) accR accT
        if merged.1.length ≥ maxReviews then merged
        else
          match step.currentPageNum with
          | none => merged
          | some n =>
            let buttonPresent :=
              match selectNextControl n with
              | .nextBlock => step.nextBlockButton
              | .immediateNext => step.immediateNextButton
            if buttonPresent && step.clickOk then
              paginateLoop maxReviews rest merged.1 merged.2
            else
              merged
    else
      (accR, accT)

/-- `_paginate_and_extract_reviews`: harvest up to `maxReviews` reviews. -/
def _paginate_and_extract_reviews (maxReviews : Nat) (steps : List PageStep) :
    List String × List String :=
  paginateLoop maxReviews steps [] []

/-! ### Rating distribution

`_get_review_rating_distribution` (oliveyoung_scraper.py:358-378) waits for
the graph panel, then for positions `i = 1..5` reads the percentage text of
`li:nth-child(i) > span.per` into `distribution[6 - i]` when non-empty.  The
whole loop sits inside one `try`: a read that raises (element absent within
its 1s timeout) jumps to the `except`, which returns the distribution built
so far.  `items i = none` models a raising read, `some s` a read returning
text `s` (possibly empty). -/

def distLoop (items : Nat → Option String) :
    List Nat → List (Nat × String) → List (Nat × String)
  | [], acc => acc
  | i :: rest, acc =>
    match items i with
    | none => acc
    | some s => if s ≠ "" then distLoop items rest (acc ++ [(6 - i, s)])
                else distLoop items rest acc

/-- `_get_review_rating_distribution`, as the association list of
(star value, percentage text) pairs in insertion order. -/
def _get_review_rating_distribution (panelPresent : Bool)
    (items : Nat → Option String) : List (Nat × String) :=
  if panelPresent then distLoop items [1, 2, 3, 4, 5] [] else []

/-! ### Gallery extraction

`_extract_image_src` (oliveyoung_scraper.py:548-563) tries `src`,
`data-src`, `data-original`, `data-lazy` in order and accepts the first
candidate that is truthy and contains `"http"`.  `_get_detail_images`
(oliveyoung_scraper.py:446-546) clicks the detail toggle (failure returns
`[]`), then runs through an ordered list of selector patterns; each pattern
enumerates some sequence of `img` elements (for `> div` patterns via the
child containers, otherwise directly — either way a DOM-ordered sequence,
which is what a pattern contributes to the environment here), appends each
resolved URL that is not already collected, and stops at the first pattern
after which the collection is non-empty. -/

structure ImgElement where
  src : Option String
  dataSrc : Option String
  dataOriginal : Option String
  dataLazy : Option String

/-- A candidate is usable when truthy and containing `"http"`. -/
def usableSrc : Option String → Bool
  | none => false
  | some s => s != "" && pyContains s "http"

/-- The final clause `src if src and "http" in src else None`. -/
def acceptSrc : Option String → Option String
  | some s => if s != "" && pyContains s "http" then some s else none
  | none => none

/-- `_extract_image_src`: first usable candidate among the four attributes. -/
def _extract_image_src (img : ImgElement) : Option String :=
  let c1 := img.src
  let c2 := if !usableSrc c1 then img.dataSrc else c1
  let c3 := if !usableSrc c2 then img.dataOriginal else c2
  let c4 := if !usableSrc c3 then img.dataLazy else c3
  acceptSrc c4

/-- The appending clause `if src and src not in images: images.append(src)`
at the level of a resolved URL. -/
def insertNew (images : List String) (src : String) : List String :=
  if src ≠ "" ∧ src ∉ images then images ++ [src] else images

/-- The per-element body of the collection loop. -/
def addImage (images : List String) (img : ImgElement) : List String :=
  match _extract_image_src img with
  | some src => insertNew images src
  | none => images

/-- All images of one pattern, folded into the running collection. -/
def addImages (images : List String) (els : List ImgElement) : List String :=
  els.foldl addImage images

/-- The pattern loop: collect the pattern's images, stop once the collection
is non-empty, otherwise try the next pattern. -/
def galleryLoop : List (List ImgElement) → List String → List String
  | [], images => images
  | p :: rest, images =>
    let images' := addImages images p
    if images'.isEmpty then galleryLoop rest images' else images'

/-- `_get_detail_images`: empty when the toggle click fails, otherwise the
result of the pattern loop. -/
def _get_detail_images (toggleOk : Bool) (patterns : List (List ImgElement)) :
    List String :=
  if toggleOk then galleryLoop patterns [] else []

/-! ### Price and scrape

`_get_price` (oliveyoung_scraper.py:398-424) tries the discounted-price
selector, then the regular-price selector, each read modelled as
`Option String` (`none` = the read raised); it returns the first truthy text,
else `""` — it never raises.

`scrape` (oliveyoung_scraper.py:141-244) raises `RuntimeError` when no page
is active (line 152-153).  `page.goto` and the stabilization block
(lines 158-191) are *not* inside any `try`, so a failure there propagates to
the caller; `navOk = false` models such a failure.  After that every field
is read inside its own `try`, and the review stage's components each catch
their failures internally, so extraction failures only leave fields unset. -/

def _get_price (discountPrice regularPrice : Option String) : String :=
  if pyTruthy discountPrice then discountPrice.getD ""
  else if pyTruthy regularPrice then regularPrice.getD ""
  else ""

structure ProductInfo where
  name : Option String := none
  price : Option String := none
  rating : Option String := none
  review_count : Option String := none
  detail_images : List String := []
  review_rating_distribution : List (Nat × String) := []
  reviews : List String := []
  review_ratings : List String := []

inductive ScrapeError where
  | noActivePage
  | navigationFailed
  deriving DecidableEq

/-- Environment of one `scrape` call: the outcome of every page interaction
the extraction performs. -/
structure ScrapeEnv where
  /-- Whether `goto`/stabilization (the uncaught region, lines 158-191)
  completed without raising. -/
  navOk : Bool
  nameText : Option String
  discountPrice : Option String
  regularPrice : Option String
  ratingText : Option String
  reviewCountText : Option String
  toggleOk : Bool
  patterns : List (List ImgElement)
  distPanelPresent : Bool
  distItems : Nat → Option String
  pageSteps : List PageStep

/-- `scrape`: `RuntimeError` without an active page; a navigation failure
propagates; otherwise a (possibly sparse) `ProductInfo` is assembled, each
extraction stage contributing best-effort. -/
def scrape (hasPage : Bool) (env : ScrapeEnv) (maxReviews : Nat) :
    Except ScrapeError ProductInfo :=
  if !hasPage then .error .noActivePage
  else if !env.navOk then .error .navigationFailed
  else
    let harvested := _paginate_and_extract_reviews maxReviews env.pageSteps
    .ok {
      name := env.nameText
      price := some (_get_price env.discountPrice env.regularPrice)
      rating := env.ratingText
      review_count := env.reviewCountText
      detail_images := _get_detail_images env.toggleOk env.patterns
      review_rating_distribution :=
        _get_review_rating_distribution env.distPanelPresent env.distItems
      reviews := harvested.1
      review_ratings := harvested.2 }

/-! ### Cookie loading

`_load_cookies` (oliveyoung_scraper.py:565-620) reads each stored cookie and
builds a Playwright cookie via direct subscripts `cookie['name']`,
`cookie['value']`, `cookie['domain']` — a missing key raises `KeyError`,
which only the `try` around the *whole* function catches; the function then
returns having injected nothing.  Optional fields are copied when present,
and `sameSite` (when present and not `'unspecified'`) is translated through
`{no_restriction: None, lax: Lax, strict: Strict}` with default `'Lax'`.
The model returns the list of cookies actually injected by
`context.add_cookies` (empty when the load was abandoned). -/

structure RawCookie where
  name : Option String
  value : Option String
  domain : Option String
  path : Option String
  expirationDate : Option String
  httpOnly : Option Bool
  secure : Option Bool
  sameSite : Option String

structure PlaywrightCookie where
  name : String
  value : String
  domain : String
  path : String
  expires : Option String
  httpOnly : Option Bool
  secure : Option Bool
  sameSite : Option String
  deriving DecidableEq

/-- The `same_site_map.get(·, 'Lax')` translation. -/
def sameSiteMap (s : String) : String :=
  if s = "no_restriction" then "None"
  else if s = "lax" then "Lax"
  else if s = "strict" then "Strict"
  else "Lax"

/-- One iteration of the conversion loop; `none` models the `KeyError` a
missing required field raises. -/
def toPlaywrightCookie (c : RawCookie) : Option PlaywrightCookie :=
  match c.name, c.value, c.domain with
  | some n, some v, some d =>
    some { name := n, value := v, domain := d
           path := c.path.getD "/"
           expires := c.expirationDate
           httpOnly := c.httpOnly
           secure := c.secure
           sameSite :=
             match c.sameSite with
             | some ss => if ss ≠ "unspecified" then some (sameSiteMap ss) else none
             | none => none }
  | _, _, _ => none

/-- The conversion loop over the stored cookies: the first `KeyError`
(required field missing) aborts the whole loop. -/
def convertCookies : List RawCookie → Option (List PlaywrightCookie)
  | [] => some []
  | c :: rest =>
    match toPlaywrightCookie c with
    | none => none
    | some pc => (convertCookies rest).map (pc :: ·)

/-- `_load_cookies`: the cookies injected into the context.  The conversion
loop runs before `add_cookies`, so the first `KeyError` abandons the whole
load and nothing is injected. -/
def _load_cookies (cookies : List RawCookie) : List PlaywrightCookie :=
  match convertCookies cookies with
  | some converted => converted
  | none => []

/-! ### Persistence (`src/database.py`)

`save_product_info` (database.py:63-134) refuses records whose `name` is
falsy.  Otherwise it looks the URL up in `products`; if found it deletes the
row's dependent image/review rows and updates the scalar columns, else it
inserts a new row under a fresh id.  It then appends the record's images and
reviews under that id.  The SQLite tables become lists of rows; `nextId`
models the `AUTOINCREMENT` counter. -/

structure DBProduct where
  id : Nat
  url : String
  name : Option String
  price : Option String
  rating : Option String
  review_count : Option String
  dist5 : Option String
  dist4 : Option String
  dist3 : Option String
  dist2 : Option String
  dist1 : Option String
  deriving DecidableEq

structure DB where
  products : List DBProduct
  product_images : List (Nat × String)
  product_reviews : List (Nat × String)
  nextId : Nat

/-- Python `dict.get(k)` on the scraped distribution. -/
def distGet (p : ProductInfo) (k : Nat) : Option String :=
  (p.review_rating_distribution.find? (fun e => e.1 == k)).map Prod.snd

/-- The `products` row holding `p`'s scalar fields under `pid`/`url`. -/
def mkRow (pid : Nat) (url : String) (p : ProductInfo) : DBProduct :=
  { id := pid, url := url, name := p.name, price := p.price
    rating := p.rating, review_count := p.review_count
    dist5 := distGet p 5, dist4 := distGet p 4, dist3 := distGet p 3
    dist2 := distGet p 2, dist1 := distGet p 1 }

/-- Append the record's dependent image/review rows under `pid` (each list
only when non-empty, mirroring the `if product_info.detail_images:` and
`if product_info.reviews:` guards). -/
def insertDependents (db : DB) (pid : Nat) (p : ProductInfo) : DB :=
  let db :=
    if p.detail_images.isEmpty then db
    else { db with product_images :=
             db.product_images ++ p.detail_images.map (fun u => (pid, u)) }
  if p.reviews.isEmpty then db
  else { db with product_reviews :=
           db.product_reviews ++ p.reviews.map (fun r => (pid, r)) }

/-- `save_product_info`. -/
def save_product_info (p : ProductInfo) (url : String) (db : DB) : DB :=
  if !pyTruthy p.name then db
  else
    match db.products.find? (fun r => r.url == url) with
    | some row =>
      let pid := row.id
      let db' : DB :=
        { db with
          product_images := db.product_images.filter (fun e => e.1 ≠ pid)
          product_reviews := db.product_reviews.filter (fun e => e.1 ≠ pid)
          products := db.products.map (fun r =>
            if r.id = pid then mkRow r.id r.url p else r) }
      insertDependents db' pid p
    | none =>
      let pid := db.nextId
      let db' : DB :=
        { db with
          products := db.products ++ [mkRow pid url p]
          nextId := db.nextId + 1 }
      insertDependents db' pid p

/-! ### Spec-side characterizations and concrete inputs -/

/-- Spec-side reading of §3's "no duplicates (by exact string match),
insertion order = discovery order": keep each non-empty URL at its first
occurrence, skipping empties and anything already seen. -/
def keepFirstOccurrences (seen : List String) : List String → List String
  | [] => []
  | s :: rest =>
    if s = "" ∨ s ∈ seen then keepFirstOccurrences seen rest
    else s :: keepFirstOccurrences (s :: seen) rest

/-- The sequence of URLs the executed gallery patterns discover, in
discovery order: earlier patterns that resolve no URL contribute nothing,
and the loop stops after the first pattern that resolves at least one. -/
def discoveredSrcsLoop : List (List ImgElement) → List String
  | [] => []
  | p :: rest =>
    let srcs := p.filterMap _extract_image_src
    if srcs.isEmpty then discoveredSrcsLoop rest else srcs

/-- URL discovery sequence of `_get_detail_images` (empty when the detail
toggle could not be clicked). -/
def discoveredSrcs (toggleOk : Bool) (patterns : List (List ImgElement)) :
    List String :=
  if toggleOk then discoveredSrcsLoop patterns else []

/-- Spec-side reading of §4.2's `sameSite` normalization, as the claim
states it: mapped through `no_restriction→None, lax→Lax, strict→Strict`
with default `Lax`, applied when the stored value is present and not
`'unspecified'` (otherwise the field is left out). -/
def expectedSameSite : Option String → Option String
  | none => none
  | some ss =>
    if ss = "unspecified" then none
    else some (if ss = "no_restriction" then "None"
               else if ss = "lax" then "Lax"
               else if ss = "strict" then "Strict"
               else "Lax")

/-- Distribution environment where position 1 reads `"50%"`, position 2's
element is absent (the read raises), and positions 3-5 read `"10%"`. -/
def exDistItems : Nat → Option String
  | 1 => some "50%"
  | 2 => none
  | _ => some "10%"

/-- A stored cookie carrying all three required fields. -/
def goodCookie : RawCookie :=
  { name := some "cf_clearance", value := some "v"
    domain := some ".oliveyoung.co.kr", path := some "/"
    expirationDate := none, httpOnly := some true, secure := some true
    sameSite := some "lax" }

/-- A malformed stored cookie: the required `domain` field is missing. -/
def badCookie : RawCookie :=
  { name := some "session", value := some "w", domain := none
    path := none, expirationDate := none, httpOnly := none, secure := none
    sameSite := none }

/-- A scrape environment where navigation succeeds but every extraction
comes up empty. -/
def exScrapeEnv : ScrapeEnv :=
  { navOk := true, nameText := none, discountPrice := none
    regularPrice := none, ratingText := none, reviewCountText := none
    toggleOk := false, patterns := [], distPanelPresent := false
    distItems := fun _ => none, pageSteps := [] }

/-- The environment of `exScrapeEnv` with navigation failing. -/
def exScrapeEnvNavFail : ScrapeEnv :=
  { exScrapeEnv with navOk := false }

/-- The sparse record `scrape` assembles in `exScrapeEnv`. -/
def exProduct : ProductInfo :=
  { price := some "" }

/-- An empty product store. -/
def exDB : DB := { products := [], product_images := [], product_reviews := [], nextId := 0 }

/-- First record saved in the upsert example. -/
def exP1 : ProductInfo := { name := some "A", detail_images := ["i1"], reviews := ["r1"] }

/-- Second record saved in the upsert example, with different field values. -/
def exP2 : ProductInfo := { name := some "B", detail_images := ["i2", "i3"] }

/-! ## Alignment and bound lemmas for the review harvester -/

theorem extractReviewStep_length (acc : List String × List String) (it : ReviewItem)
    (h : acc.1.length = acc.2.length) :
    (extractReviewStep acc it).1.length = (extractReviewStep acc it).2.length := by
  obtain ⟨a, b⟩ := acc
  cases ht : it.text <;> cases hrt : it.rating_text <;>
    simp_all [extractReviewStep]

theorem extract_fold_length (items : List ReviewItem) :
    ∀ acc : List String × List String, acc.1.length = acc.2.length →
      (items.foldl extractReviewStep acc).1.length
        = (items.foldl extractReviewStep acc).2.length := by
  induction items with
  | nil => intro acc h; simpa using h
  | cons it rest ih =>
    intro acc h
    simpa using ih _ (extractReviewStep_length acc it h)

theorem extract_reviews_length (pg : ReviewPage) :
    (_extract_reviews_from_page pg).1.length
      = (_extract_reviews_from_page pg).2.length := by
  cases h : pg.listPresent <;> simp [_extract_reviews_from_page, h]
  exact extract_fold_length pg.items ([], []) rfl

theorem appendUpTo_length_eq (maxR : Nat) :
    ∀ (ps : List (String × String)) (accR accT : List String),
      accR.length = accT.length →
      (appendUpTo maxR ps accR accT).1.length
        = (appendUpTo maxR ps accR accT).2.length := by
  intro ps
  induction ps with
  | nil => intro accR accT h; simpa [appendUpTo] using h
  | cons p ps ih =>
    intro accR accT h
    obtain ⟨r, t⟩ := p
    by_cases hlt : accR.length < maxR
    · simpa [appendUpTo, hlt] using ih (accR ++ [r]) (accT ++ [t]) (by simp [h])
    · simpa [appendUpTo, hlt] using h

theorem appendUpTo_length_le (maxR : Nat) :
    ∀ (ps : List (String × String)) (accR accT : List String),
      accR.length ≤ maxR →
      (appendUpTo maxR ps accR accT).1.length ≤ maxR := by
  intro ps
  induction ps with
  | nil => intro accR accT h; simpa [appendUpTo] using h
  | cons p ps ih =>
    intro accR accT h
    obtain ⟨r, t⟩ := p
    by_cases hlt : accR.length < maxR
    · exact le_of_eq_of_le (by simp [appendUpTo, hlt])
        (ih (accR ++ [r]) (accT ++ [t]) (by simp; omega))
    · simpa [appendUpTo, hlt] using h

theorem paginateLoop_length_eq (maxR : Nat) :
    ∀ (steps : List PageStep) (accR accT : List String),
      accR.length = accT.length →
      (paginateLoop maxR steps accR accT).1.length
        = (paginateLoop maxR steps accR accT).2.length := by
  intro steps
  induction steps with
  | nil => intro accR accT h; simpa [paginateLoop] using h
  | cons step rest ih =>
    intro accR accT h
    have hm := appendUpTo_length_eq maxR
      ((_extract_reviews_from_page step.page).1.zip
        (_extract_reviews_from_page step.page).2) accR accT h
    by_cases h1 : accR.length < maxR
    · cases h2 : (_extract_reviews_from_page step.page).1.isEmpty
      · cases hn : step.currentPageNum with
        | none => simp [paginateLoop, h1, h2, hn]; exact hm
        | some n =>
          by_cases hb : ((match selectNextControl n with
              | NextControl.nextBlock => step.nextBlockButton
              | NextControl.immediateNext => step.immediateNextButton)
              && step.clickOk) = true
          · simp [paginateLoop, h1, h2, hn, hb]
            split
            · exact hm
            · exact ih _ _ hm
          · simp [paginateLoop, h1, h2, hn, hb]
            exact hm
      · simpa [paginateLoop, h1, h2] using h
    · simpa [paginateLoop, h1] using h

theorem paginateLoop_length_le (maxR : Nat) :
    ∀ (steps : List PageStep) (accR accT : List String),
      accR.length ≤ maxR →
      (paginateLoop maxR steps accR accT).1.length ≤ maxR := by
  intro steps
  induction steps with
  | nil => intro accR accT h; simpa [paginateLoop] using h
  | cons step rest ih =>
    intro accR accT h
    have hm := appendUpTo_length_le maxR
      ((_extract_reviews_from_page step.page).1.zip
        (_extract_reviews_from_page step.page).2) accR accT h
    by_cases h1 : accR.length < maxR
    · cases h2 : (_extract_reviews_from_page step.page).1.isEmpty
      · cases hn : step.currentPageNum with
        | none => simp [paginateLoop, h1, h2, hn]; exact hm
        | some n =>
          by_cases hb : ((match selectNextControl n with
              | NextControl.nextBlock => step.nextBlockButton
              | NextControl.immediateNext => step.immediateNextButton)
              && step.clickOk) = true
          · simp [paginateLoop, h1, h2, hn, hb]
            split
            · exact hm
            · exact ih _ _ hm
          · simp [paginateLoop, h1, h2, hn, hb]
            exact hm
      · simpa [paginateLoop, h1, h2] using h
    · simpa [paginateLoop, h1] using h

theorem paginate_zero (steps : List PageStep) :
    _paginate_and_extract_reviews 0 steps = ([], []) := by
  cases steps <;> simp [_paginate_and_extract_reviews, paginateLoop]

/-! ## Gallery deduplication lemmas -/

theorem keepFirstOccurrences_congr (L : List String) :
    ∀ seen₁ seen₂ : List String, (∀ x, x ∈ seen₁ ↔ x ∈ seen₂) →
      keepFirstOccurrences seen₁ L = keepFirstOccurrences seen₂ L := by
  induction L with
  | nil => intro _ _ _; rfl
  | cons s rest ih =>
    intro seen₁ seen₂ h
    by_cases hc : s = "" ∨ s ∈ seen₁
    · have hc' : s = "" ∨ s ∈ seen₂ := by
        rcases hc with hc | hc
        · exact .inl hc
        · exact .inr ((h s).1 hc)
      unfold keepFirstOccurrences
      rw [if_pos hc, if_pos hc']
      exact ih seen₁ seen₂ h
    · have hc' : ¬(s = "" ∨ s ∈ seen₂) := by
        intro hx
        rcases hx with hx | hx
        · exact hc (.inl hx)
        · exact hc (.inr ((h s).2 hx))
      unfold keepFirstOccurrences
      rw [if_neg hc, if_neg hc']
      exact congrArg (s :: ·) (ih (s :: seen₁) (s :: seen₂) (by intro x; simp [h x]))

theorem foldl_insertNew (L : List String) :
    ∀ seen : List String,
      L.foldl insertNew seen = seen ++ keepFirstOccurrences seen L := by
  induction L with
  | nil => intro seen; simp [keepFirstOccurrences]
  | cons s rest ih =>
    intro seen
    simp only [List.foldl_cons]
    by_cases hc : s = "" ∨ s ∈ seen
    · have h1 : insertNew seen s = seen := by
        unfold insertNew; rw [if_neg (by tauto)]
      have h2 : keepFirstOccurrences seen (s :: rest)
          = keepFirstOccurrences seen rest := by
        simp only [keepFirstOccurrences]; rw [if_pos hc]
      rw [h1, h2, ih seen]
    · push_neg at hc
      have h1 : insertNew seen s = seen ++ [s] := by
        unfold insertNew; rw [if_pos hc]
      have h2 : keepFirstOccurrences seen (s :: rest)
          = s :: keepFirstOccurrences (s :: seen) rest := by
        simp only [keepFirstOccurrences]; rw [if_neg (by tauto)]
      rw [h1, h2, ih (seen ++ [s]),
        keepFirstOccurrences_congr rest (seen ++ [s]) (s :: seen)
          (by intro x; simp [or_comm])]
      simp

theorem keepFirstOccurrences_spec (L : List String) :
    ∀ seen : List String, (keepFirstOccurrences seen L).Nodup
      ∧ ∀ x ∈ keepFirstOccurrences seen L, x ∉ seen := by
  induction L with
  | nil => intro seen; simp [keepFirstOccurrences]
  | cons s rest ih =>
    intro seen
    by_cases hc : s = "" ∨ s ∈ seen
    · unfold keepFirstOccurrences
      rw [if_pos hc]
      exact ih seen
    · unfold keepFirstOccurrences
      rw [if_neg hc]
      obtain ⟨hnd, hni⟩ := ih (s :: seen)
      refine ⟨List.nodup_cons.mpr ⟨fun hmem => hni s hmem (by simp), hnd⟩, ?_⟩
      intro x hx
      rcases List.mem_cons.mp hx with rfl | hx'
      · push_neg at hc; exact hc.2
      · exact fun hxs => hni x hx' (List.mem_cons_of_mem _ hxs)

theorem keepFirstOccurrences_ne_nil (s : String) (rest : List String)
    (hs : s ≠ "") : keepFirstOccurrences [] (s :: rest) ≠ [] := by
  unfold keepFirstOccurrences
  rw [if_neg (by simp [hs])]
  simp

theorem acceptSrc_ne_empty (c : Option String) (s : String)
    (h : acceptSrc c = some s) : s ≠ "" := by
  cases c with
  | none => simp [acceptSrc] at h
  | some t =>
    simp only [acceptSrc] at h
    by_cases ht : (t != "" && pyContains t "http") = true
    · rw [if_pos ht] at h
      obtain rfl : t = s := Option.some.inj h
      intro hs
      rw [hs] at ht
      simp at ht
    · rw [if_neg ht] at h
      exact absurd h (by simp)

theorem extract_image_src_ne_empty (img : ImgElement) (s : String)
    (h : _extract_image_src img = some s) : s ≠ "" :=
  acceptSrc_ne_empty _ s h

theorem addImages_eq_foldl (els : List ImgElement) :
    ∀ images : List String,
      addImages images els
        = (els.filterMap _extract_image_src).foldl insertNew images := by
  induction els with
  | nil => intro images; rfl
  | cons el rest ih =>
    intro images
    cases h : _extract_image_src el
    · simp only [addImages, List.foldl_cons, addImage, h, List.filterMap_cons]
      exact ih images
    · simp only [addImages, List.foldl_cons, addImage, h, List.filterMap_cons,
        List.foldl_cons]
      exact ih _

theorem galleryLoop_keepFirst (patterns : List (List ImgElement)) :
    galleryLoop patterns [] = keepFirstOccurrences [] (discoveredSrcsLoop patterns) := by
  induction patterns with
  | nil => rfl
  | cons p rest ih =>
    have hadd : addImages [] p
        = keepFirstOccurrences [] (p.filterMap _extract_image_src) := by
      rw [addImages_eq_foldl, foldl_insertNew]; rfl
    cases hsrcs : p.filterMap _extract_image_src with
    | nil =>
      have h0 : addImages [] p = [] := by rw [hadd, hsrcs]; rfl
      show (if (addImages [] p).isEmpty then galleryLoop rest (addImages [] p)
            else addImages [] p)
          = keepFirstOccurrences []
              (if (p.filterMap _extract_image_src).isEmpty
               then discoveredSrcsLoop rest else p.filterMap _extract_image_src)
      rw [h0, hsrcs]
      simpa using ih
    | cons s srcs =>
      have hmem : s ∈ p.filterMap _extract_image_src := by rw [hsrcs]; simp
      obtain ⟨img, _, himg⟩ := List.mem_filterMap.mp hmem
      have hs : s ≠ "" := extract_image_src_ne_empty img s himg
      have h0 : addImages [] p = keepFirstOccurrences [] (s :: srcs) := by
        rw [hadd, hsrcs]
      show (if (addImages [] p).isEmpty then galleryLoop rest (addImages [] p)
            else addImages [] p)
          = keepFirstOccurrences []
              (if (p.filterMap _extract_image_src).isEmpty
               then discoveredSrcsLoop rest else p.filterMap _extract_image_src)
      rw [h0, hsrcs]
      have hne : keepFirstOccurrences [] (s :: srcs) ≠ [] :=
        keepFirstOccurrences_ne_nil s srcs hs
      simp [List.isEmpty_iff, hne]

/-! ## Distribution-read lemmas -/

theorem distLoop_acc_mem (items : Nat → Option String) (L : List Nat) :
    ∀ acc x, x ∈ acc → x ∈ distLoop items L acc := by
  induction L with
  | nil => intro acc x hx; simpa [distLoop] using hx
  | cons i rest ih =>
    intro acc x hx
    cases h : items i with
    | none => simpa [distLoop, h] using hx
    | some s =>
      by_cases hs : s = ""
      · simp only [distLoop, h, hs]
        simpa using ih acc x hx
      · simp only [distLoop, h]
        rw [if_pos hs]
        exact ih _ x (by simp [hx])

theorem distLoop_mem (items : Nat → Option String) (L : List Nat) :
    ∀ acc i s, (i, s) ∈ distLoop items L acc →
      (i, s) ∈ acc ∨ ∃ j ∈ L, i = 6 - j ∧ items j = some s ∧ s ≠ "" := by
  induction L with
  | nil => intro acc i s h; exact .inl (by simpa [distLoop] using h)
  | cons j rest ih =>
    intro acc i s h
    cases hj : items j with
    | none =>
      simp only [distLoop, hj] at h
      exact .inl h
    | some t =>
      by_cases ht : t = ""
      · simp only [distLoop, hj, ht] at h
        rw [if_neg (by simp)] at h
        rcases ih acc i s h with hmem | ⟨j', hj', hrest⟩
        · exact .inl hmem
        · exact .inr ⟨j', List.mem_cons_of_mem _ hj', hrest⟩
      · simp only [distLoop, hj] at h
        rw [if_pos ht] at h
        rcases ih _ i s h with hmem | ⟨j', hj', hrest⟩
        · rcases List.mem_append.mp hmem with hmem | hmem
          · exact .inl hmem
          · have heq := List.mem_singleton.mp hmem
            refine .inr ⟨j, by simp, congrArg Prod.fst heq, ?_, ?_⟩
            · rw [show s = t from congrArg Prod.snd heq]; exact hj
            · rw [show s = t from congrArg Prod.snd heq]; exact ht
        · exact .inr ⟨j', List.mem_cons_of_mem _ hj', hrest⟩

theorem distLoop_total (items : Nat → Option String) (L : List Nat) :
    ∀ acc, (∀ j ∈ L, (items j).isSome) →
      ∀ j s, j ∈ L → items j = some s → s ≠ "" → (6 - j, s) ∈ distLoop items L acc := by
  induction L with
  | nil => intro acc _ j s hj; exact absurd hj (by simp)
  | cons k rest ih =>
    intro acc hall j s hj hjs hs
    cases hk : items k with
    | none => exact absurd (hall k (by simp)) (by simp [hk])
    | some t =>
      have hrest : ∀ j ∈ rest, (items j).isSome :=
        fun j hj => hall j (List.mem_cons_of_mem _ hj)
      rcases List.mem_cons.mp hj with rfl | hj'
      · rw [hk] at hjs
        obtain rfl : t = s := Option.some.inj hjs
        simp only [distLoop, hk]
        rw [if_pos hs]
        exact distLoop_acc_mem items rest _ _ (by simp)
      · by_cases ht : t = ""
        · simp only [distLoop, hk, ht]
          rw [if_neg (by simp)]
          exact ih acc hrest j s hj' hjs hs
        · simp only [distLoop, hk]
          rw [if_pos ht]
          exact ih _ hrest j s hj' hjs hs

theorem distLoop_cut_at_none (items : Nat → Option String) (k : Nat)
    (hk : items k = none) (L : List Nat) :
    ∀ acc, L.Pairwise (· < ·) → k ∈ L →
      distLoop items L acc = distLoop items (L.filter (fun j => j < k)) acc := by
  induction L with
  | nil => intro acc _ h; exact absurd h (by simp)
  | cons a rest ih =>
    intro acc hpw hmem
    have hpw' : rest.Pairwise (· < ·) := (List.pairwise_cons.mp hpw).2
    have hlt : ∀ j ∈ rest, a < j := (List.pairwise_cons.mp hpw).1
    rcases List.mem_cons.mp hmem with heq | hmem'
    · subst heq
      have hfilter : rest.filter (fun j => j < k) = [] := by
        rw [List.filter_eq_nil_iff]
        intro j hj
        have := hlt j hj
        simp only [decide_eq_true_eq]
        omega
      simp only [distLoop, hk, List.filter_cons]
      rw [if_neg (by simp), hfilter]
      rfl
    · have hak : a < k := hlt k hmem'
      simp only [List.filter_cons]
      rw [if_pos (by simpa using hak)]
      cases ha : items a with
      | none => simp [distLoop, ha]
      | some t =>
        by_cases ht : t = ""
        · simp only [distLoop, ha]
          rw [if_neg (by simp [ht]), if_neg (by simp [ht])]
          exact ih acc hpw' hmem'
        · simp only [distLoop, ha]
          rw [if_pos ht, if_pos ht]
          exact ih _ hpw' hmem'

/-! ## Cookie-loading lemmas -/

theorem toPlaywrightCookie_none_of_malformed (c : RawCookie)
    (h : c.name = none ∨ c.value = none ∨ c.domain = none) :
    toPlaywrightCookie c = none := by
  cases hn : c.name <;> cases hv : c.value <;> cases hd : c.domain <;>
    simp_all [toPlaywrightCookie]

theorem convertCookies_none (cookies : List RawCookie) (c : RawCookie)
    (hc : c ∈ cookies) (hnone : toPlaywrightCookie c = none) :
    convertCookies cookies = none := by
  induction cookies with
  | nil => simp at hc
  | cons d rest ih =>
    rcases List.mem_cons.mp hc with rfl | hmem
    · simp [convertCookies, hnone]
    · cases hd : toPlaywrightCookie d <;> simp [convertCookies, hd, ih hmem]

theorem convertCookies_some (cookies : List RawCookie)
    (h : ∀ c ∈ cookies, c.name ≠ none ∧ c.value ≠ none ∧ c.domain ≠ none) :
    ∃ l, convertCookies cookies = some l ∧ l.length = cookies.length := by
  induction cookies with
  | nil => exact ⟨[], rfl, rfl⟩
  | cons c rest ih =>
    obtain ⟨l, hl, hlen⟩ := ih (fun d hd => h d (List.mem_cons_of_mem _ hd))
    obtain ⟨h1, h2, h3⟩ := h c (by simp)
    obtain ⟨n, hn⟩ := Option.ne_none_iff_exists'.mp h1
    obtain ⟨v, hv⟩ := Option.ne_none_iff_exists'.mp h2
    obtain ⟨d, hd⟩ := Option.ne_none_iff_exists'.mp h3
    obtain ⟨pc, hpc⟩ : ∃ pc, toPlaywrightCookie c = some pc := by
      simp [toPlaywrightCookie, hn, hv, hd]
    refine ⟨pc :: l, ?_, by simp [hlen]⟩
    simp [convertCookies, hpc, hl]

/-! ## Persistence lemmas -/

theorem insertDependents_products (db : DB) (pid : Nat) (p : ProductInfo) :
    (insertDependents db pid p).products = db.products := by
  by_cases h1 : p.detail_images.isEmpty <;> by_cases h2 : p.reviews.isEmpty <;>
    simp [insertDependents, h1, h2]

theorem insertDependents_images (db : DB) (pid : Nat) (p : ProductInfo) :
    (insertDependents db pid p).product_images
      = db.product_images ++ p.detail_images.map (fun u => (pid, u)) := by
  by_cases h1 : p.detail_images.isEmpty <;> by_cases h2 : p.reviews.isEmpty <;>
    simp_all [insertDependents, List.isEmpty_iff]

theorem insertDependents_reviews (db : DB) (pid : Nat) (p : ProductInfo) :
    (insertDependents db pid p).product_reviews
      = db.product_reviews ++ p.reviews.map (fun u => (pid, u)) := by
  by_cases h1 : p.detail_images.isEmpty <;> by_cases h2 : p.reviews.isEmpty <;>
    simp_all [insertDependents, List.isEmpty_iff]

theorem save_update_products (p : ProductInfo) (url : String) (db : DB)
    (r : DBProduct) (hname : pyTruthy p.name = true)
    (hfind : db.products.find? (fun x => x.url == url) = some r) :
    (save_product_info p url db).products
      = db.products.map (fun x => if x.id = r.id then mkRow x.id x.url p else x) := by
  unfold save_product_info
  rw [hname, hfind]
  simp [insertDependents_products]

theorem save_update_images (p : ProductInfo) (url : String) (db : DB)
    (r : DBProduct) (hname : pyTruthy p.name = true)
    (hfind : db.products.find? (fun x => x.url == url) = some r) :
    (save_product_info p url db).product_images
      = db.product_images.filter (fun e => e.1 ≠ r.id)
          ++ p.detail_images.map (fun u => (r.id, u)) := by
  unfold save_product_info
  rw [hname, hfind]
  simp [insertDependents_images]

theorem save_update_reviews (p : ProductInfo) (url : String) (db : DB)
    (r : DBProduct) (hname : pyTruthy p.name = true)
    (hfind : db.products.find? (fun x => x.url == url) = some r) :
    (save_product_info p url db).product_reviews
      = db.product_reviews.filter (fun e => e.1 ≠ r.id)
          ++ p.reviews.map (fun u => (r.id, u)) := by
  unfold save_product_info
  rw [hname, hfind]
  simp [insertDependents_reviews]

theorem save_insert_products (p : ProductInfo) (url : String) (db : DB)
    (hname : pyTruthy p.name = true)
    (hfind : db.products.find? (fun x => x.url == url) = none) :
    (save_product_info p url db).products
      = db.products ++ [mkRow db.nextId url p] := by
  unfold save_product_info
  rw [hname, hfind]
  simp [insertDependents_products]

theorem find?_map_pred_preserved {α : Type} (f : α → α) (q : α → Bool)
    (hf : ∀ x, q (f x) = q x) :
    ∀ l : List α, (l.map f).find? q = (l.find? q).map f := by
  intro l
  induction l with
  | nil => rfl
  | cons a t ih =>
    by_cases ha : q a = true
    · rw [List.map_cons, List.find?_cons_of_pos _ (by rw [hf]; exact ha),
        List.find?_cons_of_pos _ ha]
      rfl
    · rw [List.map_cons, List.find?_cons_of_neg _ (by rw [hf]; exact ha),
        List.find?_cons_of_neg _ ha, ih]

theorem filter_map_pred_preserved {α : Type} (f : α → α) (q : α → Bool)
    (hf : ∀ x, q (f x) = q x) :
    ∀ l : List α, (l.map f).filter q = (l.filter q).map f := by
  intro l
  induction l with
  | nil => rfl
  | cons a t ih =>
    by_cases ha : q a = true
    · rw [List.map_cons, List.filter_cons_of_pos (by rw [hf]; exact ha),
        List.filter_cons_of_pos ha, List.map_cons, ih]
    · rw [List.map_cons, List.filter_cons_of_neg (by rw [hf]; exact ha),
        List.filter_cons_of_neg ha, ih]

theorem find?_append_left_none {α : Type} (q : α → Bool) (l₂ : List α) :
    ∀ l₁ : List α, l₁.find? q = none → (l₁ ++ l₂).find? q = l₂.find? q := by
  intro l₁
  induction l₁ with
  | nil => intro _; simp
  | cons a t ih =>
    intro h
    have ha : ¬q a = true := by
      have := List.find?_eq_none.mp h a (by simp)
      simpa using this
    have ht : t.find? q = none := by
      rw [List.find?_eq_none] at h ⊢
      exact fun x hx => h x (List.mem_cons_of_mem _ hx)
    rw [List.cons_append, List.find?_cons_of_neg _ ha]
    exact ih ht

theorem filter_url_single (url : String) :
    ∀ (l : List DBProduct) (r : DBProduct),
      (l.map DBProduct.url).Nodup →
      l.find? (fun x => x.url == url) = some r →
      l.filter (fun x => x.url == url) = [r] := by
  intro l
  induction l with
  | nil => intro r _ h; simp at h
  | cons a t ih =>
    intro r hnd hfind
    rw [List.map_cons, List.nodup_cons] at hnd
    by_cases ha : (a.url == url) = true
    · rw [List.find?_cons_of_pos (p := fun x : DBProduct => x.url == url) t ha] at hfind
      obtain rfl : a = r := Option.some.inj hfind
      rw [List.filter_cons_of_pos (p := fun x : DBProduct => x.url == url) ha]
      have ht : t.filter (fun x => x.url == url) = [] := by
        rw [List.filter_eq_nil_iff]
        intro x hx hxq
        apply hnd.1
        have hau : a.url = url := by simpa using ha
        have hxu : x.url = url := by simpa using hxq
        rw [hau, ← hxu]
        exact List.mem_map_of_mem _ hx
      rw [ht]
    · rw [List.find?_cons_of_neg (p := fun x : DBProduct => x.url == url) t ha] at hfind
      rw [List.filter_cons_of_neg (p := fun x : DBProduct => x.url == url) ha]
      exact ih r hnd.2 hfind

theorem filter_pid_dependents (pid : Nat) (l : List (Nat × String))
    (xs : List String) :
    ((l.filter (fun e => e.1 ≠ pid)) ++ xs.map (fun u => (pid, u))).filter
        (fun e => e.1 == pid) = xs.map (fun u => (pid, u)) := by
  rw [List.filter_append]
  have h1 : (l.filter (fun e => e.1 ≠ pid)).filter (fun e => e.1 == pid) = [] := by
    rw [List.filter_eq_nil_iff]
    intro a ha
    have := List.of_mem_filter ha
    simp_all
  have h2 : (xs.map (fun u => (pid, u))).filter (fun e => e.1 == pid)
      = xs.map (fun u => (pid, u)) := by
    rw [List.filter_eq_self]
    intro a ha
    obtain ⟨u, _, rfl⟩ := List.mem_map.mp ha
    simp
  rw [h1, h2, List.nil_append]

theorem map_url_update (pid : Nat) (p : ProductInfo) (l : List DBProduct) :
    (l.map (fun x => if x.id = pid then mkRow x.id x.url p else x)).map
        DBProduct.url = l.map DBProduct.url := by
  induction l with
  | nil => rfl
  | cons a t ih =>
    simp only [List.map_cons, ih]
    congr 1
    split <;> rfl

theorem save_stage (p : ProductInfo) (url : String) (db : DB)
    (hname : pyTruthy p.name = true)
    (hnd : (db.products.map DBProduct.url).Nodup) :
    ((save_product_info p url db).products.map DBProduct.url).Nodup
    ∧ ∃ r, (save_product_info p url db).products.find?
            (fun x => x.url == url) = some r
        ∧ r.url = url := by
  cases hfind : db.products.find? (fun x => x.url == url) with
  | none =>
    have hprod := save_insert_products p url db hname hfind
    have hurl_not : url ∉ db.products.map DBProduct.url := by
      intro hmem
      obtain ⟨x, hx, hxu⟩ := List.mem_map.mp hmem
      have := List.find?_eq_none.mp hfind x hx
      simp [hxu] at this
    constructor
    · rw [hprod, List.map_append, List.nodup_append]
      refine ⟨hnd, by simp [mkRow], ?_⟩
      intro a ha hb
      simp only [List.map_cons, List.map_nil, List.mem_singleton, mkRow] at hb
      subst hb
      exact hurl_not ha
    · refine ⟨mkRow db.nextId url p, ?_, rfl⟩
      rw [hprod, find?_append_left_none _ _ _ hfind,
        List.find?_cons_of_pos (p := fun x : DBProduct => x.url == url) [] (by simp [mkRow])]
  | some r =>
    have hprod := save_update_products p url db r hname hfind
    have hrurl : r.url = url := by
      have := List.find?_some hfind
      simpa using this
    constructor
    · rw [hprod, map_url_update]
      exact hnd
    · refine ⟨mkRow r.id r.url p, ?_, by rw [mkRow]; exact hrurl⟩
      rw [hprod, find?_map_pred_preserved _ _ (fun x => by split <;> rfl) _, hfind]
      simp

/-! ## Claim theorems -/

/-- C1: for every ProductRecord produced or under construction by the
scraper, `reviews` and `review_ratings` have equal length at every
intermediate state — after each per-item append inside a page extraction,
in each page's extraction result, after each page is merged into the
accumulators via `appendUpTo` — and in the final returned record. -/
theorem reviews_ratings_aligned
    (acc : List String × List String) (it : ReviewItem) (pg : ReviewPage)
    (pairs : List (String × String)) (accR accT : List String)
    (maxR : Nat) (steps : List PageStep)
    (hasPage : Bool) (env : ScrapeEnv) (p : ProductInfo)
    (hacc : acc.1.length = acc.2.length)
    (haccs : accR.length = accT.length)
    (hp : scrape hasPage env maxR = Except.ok p) :
    (extractReviewStep acc it).1.length = (extractReviewStep acc it).2.length
    ∧ (_extract_reviews_from_page pg).1.length
        = (_extract_reviews_from_page pg).2.length
    ∧ (appendUpTo maxR pairs accR accT).1.length
        = (appendUpTo maxR pairs accR accT).2.length
    ∧ (_paginate_and_extract_reviews maxR steps).1.length
        = (_paginate_and_extract_reviews maxR steps).2.length
    ∧ p.reviews.length = p.review_ratings.length := by
  refine ⟨extractReviewStep_length acc it hacc, extract_reviews_length pg,
    appendUpTo_length_eq maxR pairs accR accT haccs,
    paginateLoop_length_eq maxR steps [] [] rfl, ?_⟩
  cases hpg : hasPage
  · rw [hpg] at hp; simp [scrape] at hp
  · cases hnav : env.navOk
    · rw [hpg] at hp; simp [scrape, hnav] at hp
    · rw [hpg] at hp
      simp only [scrape, hnav, Bool.not_true, Bool.false_eq_true, if_false,
        Except.ok.injEq] at hp
      rw [← hp]
      exact paginateLoop_length_eq maxR env.pageSteps [] [] rfl

/-- Witness for C1 at concrete inputs. -/
theorem reviews_ratings_aligned_witness :
    ((["a"], ["5"]) : List String × List String).1.length
      = (["a"], ["5"]).2.length
    ∧ (["b"] : List String).length = (["3"] : List String).length
    ∧ scrape true exScrapeEnv 0 = Except.ok exProduct
    ∧ ((extractReviewStep (["a"], ["5"]) ⟨some "t", some "r"⟩).1.length
        = (extractReviewStep (["a"], ["5"]) ⟨some "t", some "r"⟩).2.length
      ∧ (_extract_reviews_from_page ⟨true, []⟩).1.length
        = (_extract_reviews_from_page ⟨true, []⟩).2.length
      ∧ (appendUpTo 0 [("x", "1")] ["b"] ["3"]).1.length
        = (appendUpTo 0 [("x", "1")] ["b"] ["3"]).2.length
      ∧ (_paginate_and_extract_reviews 0 []).1.length
        = (_paginate_and_extract_reviews 0 []).2.length
      ∧ exProduct.reviews.length = exProduct.review_ratings.length) :=
  ⟨rfl, rfl, rfl,
    reviews_ratings_aligned (["a"], ["5"]) ⟨some "t", some "r"⟩ ⟨true, []⟩
      [("x", "1")] ["b"] ["3"] 0 [] true exScrapeEnv exProduct rfl rfl rfl⟩

/-- C2: for every requested maximum and every environment,
`_paginate_and_extract_reviews` returns at most `maxReviews` reviews, and
for a maximum of `0` it returns empty accumulators. -/
theorem harvest_max_bound (maxReviews : Nat) (steps steps0 : List PageStep) :
    (_paginate_and_extract_reviews maxReviews steps).1.length ≤ maxReviews
    ∧ _paginate_and_extract_reviews 0 steps0 = ([], []) :=
  ⟨paginateLoop_length_le maxReviews steps [] [] (Nat.zero_le _),
    paginate_zero steps0⟩

/-- C3 counterexample: the claim says `scrape` raises only when invoked
without an active page, and that navigation failures yield a sparse record
instead.  But `page.goto` and the stabilization block (lines 158-191) are
outside every `try`, so with an active page and a failing navigation the
call still raises. -/
theorem scrape_navigation_failure_raises :
    scrape true exScrapeEnvNavFail 30 = Except.error ScrapeError.navigationFailed :=
  rfl

/-- C3 amended: `scrape` raises exactly when invoked without an active page
or when navigation/stabilization (the code before any extraction `try`)
fails; every condition arising inside the extraction stages leaves the call
returning a (possibly sparse) record. -/
theorem scrape_error_iff (hasPage : Bool) (env : ScrapeEnv) (maxReviews : Nat) :
    (∃ e, scrape hasPage env maxReviews = Except.error e)
      ↔ (hasPage = false ∨ env.navOk = false) := by
  cases hasPage <;> cases h : env.navOk <;> simp [scrape, h]

/-- C4: the rating-phrase parser maps `'5점만점에 4점'` to `"4"`; any phrase
not containing the scale marker parses to `""`; and a review item whose
rating phrase parses to `""` is still appended with its text alongside the
empty rating value. -/
theorem rating_parse_behavior
    (s : String) (hs : pyContains s "점만점에" = false)
    (acc : List String × List String) (it : ReviewItem) (t rt : String)
    (ht : it.text = some t) (hrt : it.rating_text = some rt)
    (hun : _parse_rating_from_text rt = "") :
    _parse_rating_from_text "5점만점에 4점" = "4"
    ∧ _parse_rating_from_text s = ""
    ∧ extractReviewStep acc it = (acc.1 ++ [t], acc.2 ++ [""]) := by
  refine ⟨by decide, ?_, ?_⟩
  · simp [_parse_rating_from_text, hs]
  · simp [extractReviewStep, ht, hrt, hun]

/-- Witness for C4 at concrete inputs. -/
theorem rating_parse_behavior_witness :
    pyContains "별로였어요" "점만점에" = false
    ∧ (⟨some "good", some "no score"⟩ : ReviewItem).text = some "good"
    ∧ (⟨some "good", some "no score"⟩ : ReviewItem).rating_text = some "no score"
    ∧ _parse_rating_from_text "no score" = ""
    ∧ (_parse_rating_from_text "5점만점에 4점" = "4"
      ∧ _parse_rating_from_text "별로였어요" = ""
      ∧ extractReviewStep ([], []) ⟨some "good", some "no score"⟩
          = ((([], []) : List String × List String).1 ++ ["good"],
             (([], []) : List String × List String).2 ++ [""])) :=
  ⟨by decide, rfl, rfl, by decide,
    rating_parse_behavior "별로였어요" (by decide) ([], [])
      ⟨some "good", some "no score"⟩ "good" "no score" rfl rfl (by decide)⟩

/-- C5: the pagination step selects the "next block" control exactly for
page numbers that are multiples of 10 and the "immediate next" control
otherwise; in particular page 10 selects the next-block control and page 11
the immediate-next control.  (`selectNextControl` is the selection
`paginateLoop` performs before querying a button.) -/
theorem next_control_mapping :
    (∀ n : Nat, n % 10 = 0 → selectNextControl n = NextControl.nextBlock)
    ∧ (∀ n : Nat, n % 10 ≠ 0 → selectNextControl n = NextControl.immediateNext)
    ∧ selectNextControl 10 = NextControl.nextBlock
    ∧ selectNextControl 11 = NextControl.immediateNext := by
  refine ⟨fun n h => ?_, fun n h => ?_, by decide, by decide⟩
  · simp [selectNextControl, h]
  · simp [selectNextControl, h]

/-- Witness for C5 at pages 10 and 11. -/
theorem next_control_mapping_witness :
    (10 % 10 = 0 ∧ selectNextControl 10 = NextControl.nextBlock)
    ∧ (11 % 10 ≠ 0 ∧ selectNextControl 11 = NextControl.immediateNext) :=
  ⟨⟨by decide, next_control_mapping.1 10 (by decide)⟩,
    ⟨by decide, next_control_mapping.2.1 11 (by decide)⟩⟩

/-- C6 counterexample: the claim says an unreadable distribution entry is
simply omitted while later entries are still read.  In the code the single
`try` wraps the whole loop, so when position 2's read raises, position 3's
entry — readable as `"10%"` — is dropped as well. -/
theorem distribution_drops_later_entries :
    _get_review_rating_distribution true exDistItems = [(5, "50%")]
    ∧ exDistItems 3 = some "10%"
    ∧ (3, "10%") ∉ _get_review_rating_distribution true exDistItems := by
  refine ⟨by decide, rfl, by decide⟩

/-- C6 amended: positions 1..5 map to star value `6 - i`; every recorded
entry comes from a successful non-empty read; when every position is
readable, each non-empty text is present (an empty text is merely omitted,
later entries still read); but a position whose element cannot be read
terminates the read, so it and all later positions are omitted. -/
theorem distribution_read_behavior (items : Nat → Option String) :
    (∀ i s, (i, s) ∈ _get_review_rating_distribution true items →
      ∃ j, j ∈ [1, 2, 3, 4, 5] ∧ i = 6 - j ∧ items j = some s ∧ s ≠ "")
    ∧ ((∀ j ∈ [1, 2, 3, 4, 5], (items j).isSome) →
      ∀ j s, j ∈ [1, 2, 3, 4, 5] → items j = some s → s ≠ "" →
        (6 - j, s) ∈ _get_review_rating_distribution true items)
    ∧ (∀ k, k ∈ [1, 2, 3, 4, 5] → items k = none →
      ∀ j s, k ≤ j → (6 - j, s) ∉ _get_review_rating_distribution true items) := by
  refine ⟨?_, ?_, ?_⟩
  · intro i s hmem
    rcases distLoop_mem items [1, 2, 3, 4, 5] [] i s
        (by simpa [_get_review_rating_distribution] using hmem) with h | ⟨j, hj, h⟩
    · simp at h
    · exact ⟨j, hj, h⟩
  · intro hall j s hj hjs hs
    simpa [_get_review_rating_distribution] using
      distLoop_total items [1, 2, 3, 4, 5] [] hall j s hj hjs hs
  · intro k hk hknone j s hj hmem
    have hcut := distLoop_cut_at_none items k hknone [1, 2, 3, 4, 5] []
      (by decide) hk
    rw [_get_review_rating_distribution] at hmem
    simp only [if_true] at hmem
    rw [hcut] at hmem
    rcases distLoop_mem items _ [] _ s hmem with h | ⟨j', hj', hjeq, _, _⟩
    · simp at h
    · have hj'lt : j' < k := by
        have := List.of_mem_filter hj'
        simpa using this
      have hj'mem : j' ∈ [1, 2, 3, 4, 5] := List.mem_of_mem_filter hj'
      have hj'cases : j' = 1 ∨ j' = 2 ∨ j' = 3 ∨ j' = 4 ∨ j' = 5 := by
        simpa using hj'mem
      omega

/-- Witness for C6 amended, at the concrete aborting environment. -/
theorem distribution_read_behavior_witness :
    (2 : Nat) ∈ [1, 2, 3, 4, 5] ∧ exDistItems 2 = none ∧ (2 : Nat) ≤ 4
    ∧ (6 - 4, "10%") ∉ _get_review_rating_distribution true exDistItems :=
  ⟨by decide, rfl, by decide,
    (distribution_read_behavior exDistItems).2.2 2 (by decide) rfl 4 "10%"
      (by decide)⟩

/-- C7 counterexample: the claim says a malformed cookie entry is skipped
while well-formed entries are still injected.  In the code a missing
required field raises `KeyError` before `add_cookies` runs and the outer
`except` abandons the load, so a list holding one well-formed and one
malformed entry injects nothing at all. -/
theorem cookie_load_abandons_well_formed :
    toPlaywrightCookie goodCookie ≠ none
    ∧ _load_cookies [goodCookie, badCookie] = []
    ∧ _load_cookies [goodCookie] ≠ [] := by
  refine ⟨by decide, by decide, by decide⟩

/-- C7 amended: a malformed entry (missing `name`, `value` or `domain`)
aborts the whole load — nothing is injected (the failure is caught, so the
scrape proceeds cookie-less); when every entry is well-formed, all entries
are converted and injected, and each injected cookie's `sameSite` is the
stated normalization (`no_restriction→None`, `lax→Lax`, `strict→Strict`,
default `Lax`), applied when the stored value is present and not
`'unspecified'`. -/
theorem cookie_load_behavior (cookies : List RawCookie) :
    ((∃ c ∈ cookies, c.name = none ∨ c.value = none ∨ c.domain = none) →
      _load_cookies cookies = [])
    ∧ ((∀ c ∈ cookies, c.name ≠ none ∧ c.value ≠ none ∧ c.domain ≠ none) →
      convertCookies cookies = some (_load_cookies cookies)
      ∧ (_load_cookies cookies).length = cookies.length)
    ∧ (∀ c pc, toPlaywrightCookie c = some pc →
      pc.sameSite = expectedSameSite c.sameSite) := by
  refine ⟨?_, ?_, ?_⟩
  · intro ⟨c, hc, hmal⟩
    rw [_load_cookies,
      convertCookies_none cookies c hc (toPlaywrightCookie_none_of_malformed c hmal)]
  · intro hall
    obtain ⟨l, hl, hlen⟩ := convertCookies_some cookies hall
    have hload : _load_cookies cookies = l := by
      unfold _load_cookies
      rw [hl]
    rw [hload]
    exact ⟨hl, hlen⟩
  · intro c pc hpc
    cases hn : c.name <;> cases hv : c.value <;> cases hd : c.domain <;>
      simp_all [toPlaywrightCookie]
    cases hss : c.sameSite with
    | none => simp [← hpc, expectedSameSite, hss]
    | some ss =>
      by_cases hun : ss = "unspecified" <;>
        simp [← hpc, expectedSameSite, hss, hun, sameSiteMap]

/-- Witness for C7 amended at concrete cookie lists. -/
theorem cookie_load_behavior_witness :
    (∃ c ∈ [goodCookie, badCookie],
      c.name = none ∨ c.value = none ∨ c.domain = none)
    ∧ _load_cookies [goodCookie, badCookie] = []
    ∧ (∀ c ∈ [goodCookie], c.name ≠ none ∧ c.value ≠ none ∧ c.domain ≠ none)
    ∧ convertCookies [goodCookie] = some (_load_cookies [goodCookie])
    ∧ (_load_cookies [goodCookie]).length = [goodCookie].length :=
  ⟨by decide, (cookie_load_behavior [goodCookie, badCookie]).1 (by decide),
    by decide, ((cookie_load_behavior [goodCookie]).2.1 (by decide)).1,
    ((cookie_load_behavior [goodCookie]).2.1 (by decide)).2⟩

/-- C8: the detail-image list contains no duplicate URL strings, and it
equals the first-occurrence filtering of the discovery sequence — so its
order is the order in which the URLs were first discovered. -/
theorem detail_images_dedup (toggleOk : Bool) (patterns : List (List ImgElement)) :
    (_get_detail_images toggleOk patterns).Nodup
    ∧ _get_detail_images toggleOk patterns
        = keepFirstOccurrences [] (discoveredSrcs toggleOk patterns) := by
  cases toggleOk
  · exact ⟨by simp [_get_detail_images], by simp [_get_detail_images,
      discoveredSrcs, keepFirstOccurrences]⟩
  · have he := galleryLoop_keepFirst patterns
    refine ⟨?_, ?_⟩
    · rw [show _get_detail_images true patterns = galleryLoop patterns [] from rfl, he]
      exact (keepFirstOccurrences_spec _ []).1
    · rw [show _get_detail_images true patterns = galleryLoop patterns [] from rfl, he]
      rw [show discoveredSrcs true patterns = discoveredSrcsLoop patterns from rfl]

/-- C9: persisting two records for the same URL leaves exactly one
`products` row for that URL, carrying the second record's scalar fields,
and the dependent image/review rows under that row's id are exactly the
second record's — the first record's dependents are deleted, never
accumulated. -/
theorem product_upsert_replaces (db : DB) (p₁ p₂ : ProductInfo) (url : String)
    (hnd : (db.products.map DBProduct.url).Nodup)
    (h₁ : pyTruthy p₁.name = true) (h₂ : pyTruthy p₂.name = true) :
    ∃ pid,
      (save_product_info p₂ url (save_product_info p₁ url db)).products.filter
          (fun r => r.url == url) = [mkRow pid url p₂]
      ∧ ((save_product_info p₂ url (save_product_info p₁ url db)).product_images.filter
          (fun e => e.1 == pid)).map Prod.snd = p₂.detail_images
      ∧ ((save_product_info p₂ url (save_product_info p₁ url db)).product_reviews.filter
          (fun e => e.1 == pid)).map Prod.snd = p₂.reviews := by
  obtain ⟨hnd₁, r₁, hfind₁, hurl₁⟩ := save_stage p₁ url db h₁ hnd
  refine ⟨r₁.id, ?_, ?_, ?_⟩
  · rw [save_update_products p₂ url _ r₁ h₂ hfind₁,
      filter_map_pred_preserved _ _ (fun x => by split <;> rfl) _,
      filter_url_single url _ r₁ hnd₁ hfind₁]
    simp [hurl₁]
  · rw [save_update_images p₂ url _ r₁ h₂ hfind₁, filter_pid_dependents]
    simp
  · rw [save_update_reviews p₂ url _ r₁ h₂ hfind₁, filter_pid_dependents]
    simp

/-- Witness for C9: two saves of the same URL from an empty store. -/
theorem product_upsert_replaces_witness :
    ((exDB.products.map DBProduct.url).Nodup
      ∧ pyTruthy exP1.name = true ∧ pyTruthy exP2.name = true)
    ∧ ∃ pid,
      (save_product_info exP2 "u" (save_product_info exP1 "u" exDB)).products.filter
          (fun r => r.url == "u") = [mkRow pid "u" exP2]
      ∧ ((save_product_info exP2 "u" (save_product_info exP1 "u" exDB)).product_images.filter
          (fun e => e.1 == pid)).map Prod.snd = exP2.detail_images
      ∧ ((save_product_info exP2 "u" (save_product_info exP1 "u" exDB)).product_reviews.filter
          (fun e => e.1 == pid)).map Prod.snd = exP2.reviews :=
  ⟨⟨by simp [exDB], by decide, by decide⟩,
    product_upsert_replaces exDB exP1 exP2 "u" (by simp [exDB]) (by decide) (by decide)⟩

/-- C10: a record whose `name` is unset (`None` or empty) is not persisted
at all — `save_product_info` leaves the store completely unchanged and
returns normally. -/
theorem save_skips_unnamed_record (db : DB) (p : ProductInfo) (url : String)
    (h : p.name = none ∨ p.name = some "") :
    save_product_info p url db = db := by
  rcases h with h | h <;> simp [save_product_info, pyTruthy, h]

/-- Witness for C10 at a concrete nameless record. -/
theorem save_skips_unnamed_record_witness :
    (ProductInfo.name { detail_images := ["i"] } = none
      ∨ ProductInfo.name { detail_images := ["i"] } = some "")
    ∧ save_product_info { detail_images := ["i"] } "u" (DB.mk [] [] [] 7)
        = DB.mk [] [] [] 7 :=
  ⟨Or.inl rfl,
    save_skips_unnamed_record (DB.mk [] [] [] 7) { detail_images := ["i"] } "u"
      (Or.inl rfl)⟩

end OliveYoung
